import Mathlib

/-!
Shallow embedding of the fractional-position ordering engine of the
task-manager repository (Next.js server actions over a Prisma store).

The embedding follows `src/app/actions/index.ts` (server actions:
`moveTask`, `rebalancePositions`, `moveCategory`, `createTask`,
`createCategory`, `getNextPosition`, `getDefaultCategoryId`,
`verifyTaskOwnership`, the `updateTask*` field editors) and the Prisma
client extension in `lib/db.ts` (`calculateNewPosition` and the
`task.reorder` / `category.reorder` model methods).

Modelling conventions:
- The persistent store is a value of type `Store`: the users, the list of
  task rows and the list of category rows, in table order (Prisma `create`
  appends a row).
- `position` columns are double-precision floats in the deployment; they
  are modelled as `ℚ`.  Every number the engine manipulates here
  (multiples of 500 and 1000, halvings, the 0.001 minimum gap) is exact
  in binary floating point at the scales the claims use, so `ℚ` and
  `float` agree on every computation appearing in the theorems below.
- A server action is a function `Store → ... → Except Err Store`: Prisma
  transactions are all-or-nothing, so a thrown (typed) error leaves the
  store unchanged; `applyResult` turns a result back into the committed
  store (the old store when the transaction aborted).
- `Promise.all` of independent per-row updates (the rebalance loop) is
  modelled as a left-to-right fold of the row updates.
- Dates and the AI-suggestion fields are orthogonal to every claim and
  are omitted from the row types.
-/

namespace TaskManager

/-- Task status enum, `TaskStatus` of the Prisma schema. -/
inductive TaskStatus where
  | TODO
  | IN_PROGRESS
  | COMPLETED
deriving DecidableEq, Repr, BEq

/-- A task row: `id`, `userId`, `position` and the editable fields the
claims mention. -/
structure Task where
  id : String
  userId : String
  position : ℚ
  title : String
  description : Option String := none
  status : TaskStatus := TaskStatus.TODO
  categoryId : Option String := none
deriving DecidableEq, Repr

/-- A category row. -/
structure Category where
  id : String
  userId : String
  name : String
  isDefault : Bool
  position : ℚ
deriving DecidableEq, Repr

/-- The persistent store: user ids, task rows, category rows. -/
structure Store where
  users : List String := []
  tasks : List Task := []
  categories : List Category := []
deriving DecidableEq, Repr

/-- The typed error taxonomy of `lib/errors.ts`: `ValidationError`,
`AuthorizationError`, `PositionError`, each carrying its message. -/
inductive Err where
  | validationError (msg : String)
  | authorizationError (msg : String)
  | positionError (msg : String)
deriving DecidableEq, Repr

/-- The committed store of a transactional action result: the new store on
commit, the unchanged store on abort (Prisma transactions roll back). -/
def applyResult (store : Store) (r : Except Err Store) : Store :=
  match r with
  | Except.ok s => s
  | Except.error _ => store

/-- `POSITION_GAP` of `moveTask` / `rebalancePositions` (= 1000). -/
def POSITION_GAP : ℚ := 1000

/-- `POSITION_SPACING` of `lib/db.ts` (= 1000). -/
def POSITION_SPACING : ℚ := 1000

/-- `MIN_GAP` of `calculateNewPosition` in `lib/db.ts` (= 0.001). -/
def MIN_GAP : ℚ := 1 / 1000

/-- The position of the first row with the given id (`position` read back
through a point lookup by id). -/
def posOf (tasks : List Task) (taskId : String) : Option ℚ :=
  (tasks.find? (fun t => t.id == taskId)).map (fun t => t.position)

/-- The position of the first category row with the given id. -/
def posOfCat (categories : List Category) (categoryId : String) : Option ℚ :=
  (categories.find? (fun c => c.id == categoryId)).map (fun c => c.position)

/-- Insert a task into a position-ascending list, keeping it sorted. -/
def insertByPos (t : Task) : List Task → List Task
  | [] => [t]
  | u :: us => if t.position ≤ u.position then t :: u :: us else u :: insertByPos t us

/-- Sort task rows ascending by `position`: the `orderBy: Unhandled
position asc` read of the sibling set inside the move transaction. -/
def sortByPos : List Task → List Task
  | [] => []
  | t :: ts => insertByPos t (sortByPos ts)

/-- `prisma.task.findFirst({ where: { id: taskId, userId } })` — the
ownership lookup of `verifyTaskOwnership`. -/
def findOwnedTask (store : Store) (userId taskId : String) : Option Task :=
  store.tasks.find? (fun t => t.id == taskId && t.userId == userId)

/-- `prisma.category.findFirst({ where: { id: categoryId, userId } })` —
the ownership lookup of `verifyCategoryOwnership`. -/
def findOwnedCategory (store : Store) (userId categoryId : String) : Option Category :=
  store.categories.find? (fun c => c.id == categoryId && c.userId == userId)

/-- One `tx.task.update({ where: { id }, data: { position } })` write. -/
def updatePositionById (tasks : List Task) (taskId : String) (pos : ℚ) : List Task :=
  tasks.map (fun t => if t.id == taskId then { t with position := pos } else t)

/-- The rebalance loop over the remaining rows: row at offset `k` of the
original list receives position `(k + 1) * POSITION_GAP`. -/
def rebAux (tasks : List Task) (k : Nat) : List Task → List Task
  | [] => tasks
  | t :: ts => rebAux (updatePositionById tasks t.id ((k + 1 : ℚ) * POSITION_GAP)) (k + 1) ts

/-- `rebalancePositions(tx, tasks)` of `src/app/actions/index.ts`: writes
`position = (index + 1) * POSITION_GAP` for every member of `column`,
indexed in list order, into the task table `tasks`. -/
def rebalancePositions (tasks : List Task) (column : List Task) : List Task :=
  rebAux tasks 0 column

/-- The final write of the move transaction:
`tx.task.update({ where: { id: taskId }, data: { position, ...(categoryId && { categoryId }) } })`. -/
def commitMove (store : Store) (taskId : String) (pos : ℚ)
    (categoryId : Option String) : Store :=
  { store with
    tasks := store.tasks.map (fun t =>
      if t.id == taskId then
        { t with
          position := pos
          categoryId := match categoryId with
            | some c => some c
            | none => t.categoryId }
      else t) }

/-- The transactional body of `moveTask` (everything inside
`prisma.$transaction`): load the sibling set (all of the user's tasks,
ascending by position), branch on which neighbour ids were supplied,
rebalance when the two-neighbour gap is below 1, and write the moved
task's new position. -/
def moveTaskTx (store : Store) (userId taskId : String)
    (beforeId afterId categoryId : Option String) : Except Err Store :=
  let columnTasks := sortByPos (store.tasks.filter (fun t => t.userId == userId))
  match beforeId, afterId with
  | none, none =>
    -- moving to start: `columnTasks[0]?.position ? columnTasks[0].position - POSITION_GAP : 0`
    let newPosition : ℚ :=
      match columnTasks.head? with
      | some t => if t.position = 0 then 0 else t.position - POSITION_GAP
      | none => 0
    Except.ok (commitMove store taskId newPosition categoryId)
  | none, some aid =>
    match columnTasks.find? (fun t => t.id == aid) with
    | none => Except.error (Err.positionError "Reference task not found")
    | some afterTask =>
      Except.ok (commitMove store taskId (afterTask.position - POSITION_GAP / 2) categoryId)
  | some bid, none =>
    match columnTasks.find? (fun t => t.id == bid) with
    | none => Except.error (Err.positionError "Reference task not found")
    | some beforeTask =>
      Except.ok (commitMove store taskId (beforeTask.position + POSITION_GAP / 2) categoryId)
  | some bid, some aid =>
    match columnTasks.find? (fun t => t.id == bid), columnTasks.find? (fun t => t.id == aid) with
    | some beforeTask, some afterTask =>
      let positionDiff := afterTask.position - beforeTask.position
      if positionDiff < 1 then
        -- rebalance, then write the midpoint of the in-memory (pre-rebalance)
        -- neighbour positions, exactly as the source does
        let store2 : Store := { store with tasks := rebalancePositions store.tasks columnTasks }
        Except.ok (commitMove store2 taskId
          ((beforeTask.position + afterTask.position) / 2) categoryId)
      else
        Except.ok (commitMove store taskId
          (beforeTask.position + positionDiff / 2) categoryId)
    | _, _ => Except.error (Err.positionError "Reference task not found")

/-- `moveTask(userId, taskId, data)` of `src/app/actions/index.ts`:
ownership guard, optional target-category guard, then the transactional
body. -/
def moveTask (store : Store) (userId taskId : String)
    (beforeId afterId categoryId : Option String) : Except Err Store :=
  match findOwnedTask store userId taskId with
  | none => Except.error (Err.authorizationError "Task not found or unauthorized")
  | some _ =>
    match categoryId with
    | some cid =>
      match findOwnedCategory store userId cid with
      | none => Except.error (Err.authorizationError "Category not found or unauthorized")
      | some _ => moveTaskTx store userId taskId beforeId afterId categoryId
    | none => moveTaskTx store userId taskId beforeId afterId categoryId

/-- `calculateNewPosition` of `lib/db.ts`, after the two `findUnique`
lookups resolved the optional neighbour ids to rows (an id that does not
resolve behaves as an absent neighbour, as in the source). -/
def calculateNewPosition (beforeItem afterItem : Option ℚ) : Except Err ℚ :=
  match beforeItem, afterItem with
  | some b, some a =>
    let newPosition := (a + b) / 2
    if |newPosition - b| < MIN_GAP ∨ |newPosition - a| < MIN_GAP then
      Except.error (Err.positionError "Positions too close, rebalancing required")
    else
      Except.ok newPosition
  | none, some a => Except.ok (a / 2)
  | some b, none => Except.ok (b + POSITION_SPACING)
  | none, none => Except.ok POSITION_SPACING

/-- `prisma.category.findUnique({ where: { id } })` — the global (not
owner-scoped) lookup `calculateNewPosition` is given by `category.reorder`. -/
def categoryFindUnique (store : Store) (categoryId : String) : Option Category :=
  store.categories.find? (fun c => c.id == categoryId)

/-- `prisma.category.reorder` of `lib/db.ts`: compute the new position via
`calculateNewPosition` and update the category row. -/
def categoryReorder (store : Store) (categoryId : String)
    (beforeId afterId : Option String) : Except Err Store :=
  match calculateNewPosition
      ((beforeId.bind (categoryFindUnique store)).map (fun c => c.position))
      ((afterId.bind (categoryFindUnique store)).map (fun c => c.position)) with
  | Except.error e => Except.error e
  | Except.ok newPosition =>
    Except.ok { store with
      categories := store.categories.map (fun c =>
        if c.id == categoryId then { c with position := newPosition } else c) }

/-- `moveCategory(userId, categoryId, data)` of `src/app/actions/index.ts`:
ownership guard, then `prisma.category.reorder`. -/
def moveCategory (store : Store) (userId categoryId : String)
    (beforeId afterId : Option String) : Except Err Store :=
  match findOwnedCategory store userId categoryId with
  | none => Except.error (Err.authorizationError "Category not found or unauthorized")
  | some _ => categoryReorder store categoryId beforeId afterId

/-- `validateTitle`: rejects a blank (all-whitespace or empty) title and a
title longer than 255 characters. -/
def validateTitleOk (title : String) : Bool :=
  title.data.any (fun c => !c.isWhitespace) && title.data.length ≤ 255

/-- `validateDescription`: rejects a present description longer than 1000
characters. -/
def validateDescriptionOk (description : Option String) : Bool :=
  match description with
  | none => true
  | some d => d.data.length ≤ 1000

/-- `validateStatus`: membership in the status enum. -/
def validateStatusOk (status : TaskStatus) : Bool :=
  [TaskStatus.TODO, TaskStatus.IN_PROGRESS, TaskStatus.COMPLETED].contains status

/-- `findFirst({ where: { userId }, orderBy: { position: 'desc' } })`
projected to its position: the greatest position value in the scope. -/
def lastPositionDesc : List ℚ → Option ℚ
  | [] => none
  | p :: ps =>
    some (match lastPositionDesc ps with
      | none => p
      | some q => max p q)

/-- `getNextPosition(userId)`: `(lastTask?.position ?? 0) + 1000` over the
user's tasks. -/
def getNextPosition (store : Store) (userId : String) : ℚ :=
  (lastPositionDesc ((store.tasks.filter (fun t => t.userId == userId)).map
    (fun t => t.position))).getD 0 + 1000

/-- `getDefaultCategoryId(userId)`: return the user's default category id,
lazily creating the default category — with `position: 0` — when the user
has none.  `newId` stands for the id the store assigns to a created row. -/
def getDefaultCategoryId (store : Store) (userId newId : String) : Store × String :=
  match store.categories.find? (fun c => c.userId == userId && c.isDefault) with
  | some c => (store, c.id)
  | none =>
    let newDefaultCategory : Category :=
      { id := newId, userId := userId, name := "unassigned", isDefault := true, position := 0 }
    ({ store with categories := store.categories ++ [newDefaultCategory] }, newId)

/-- The `data` argument of `createTask`. -/
structure CreateTaskInput where
  title : String
  description : Option String := none
  categoryId : Option String := none
  status : Option TaskStatus := none
deriving Repr

/-- `data.categoryId || await getDefaultCategoryId(userId)`: a missing —
or empty, hence falsy — category id falls back to the (lazily created)
default category. -/
def resolveCategoryId (store : Store) (userId : String) (categoryId : Option String)
    (newCatId : String) : Store × String :=
  match categoryId with
  | some c => if c == "" then getDefaultCategoryId store userId newCatId else (store, c)
  | none => getDefaultCategoryId store userId newCatId

/-- `createTask(userId, data)`: validate, then create the task at
`getNextPosition(userId)`, defaulting the status to `TODO` and the
category to the (lazily created) default category.  `newTaskId` and
`newCatId` stand for the ids the store assigns to created rows. -/
def createTask (store : Store) (userId : String) (data : CreateTaskInput)
    (newTaskId newCatId : String) : Except Err Store :=
  if !(validateTitleOk data.title) then
    Except.error (Err.validationError "Title must be between 1 and 255 characters")
  else if !(validateDescriptionOk data.description) then
    Except.error (Err.validationError "Description must not exceed 1000 characters")
  else if userId == "" then
    -- thrown by `getNextPosition`
    Except.error (Err.validationError "User ID is required")
  else
    Except.ok { (resolveCategoryId store userId data.categoryId newCatId).1 with
      tasks := (resolveCategoryId store userId data.categoryId newCatId).1.tasks ++
        [{ id := newTaskId, userId := userId,
           position := getNextPosition store userId,
           title := data.title, description := data.description,
           status := data.status.getD TaskStatus.TODO,
           categoryId := some (resolveCategoryId store userId data.categoryId newCatId).2 }] }

/-- `createCategory(userId, data)`: validate, verify the user exists, then
create the category at `(lastCategory?.position ?? 0) + 1000`. -/
def createCategory (store : Store) (userId : String) (name : String)
    (isDefault : Option Bool) (newId : String) : Except Err Store :=
  if userId == "" then
    Except.error (Err.validationError "User ID is required")
  else if !(validateTitleOk name) then
    Except.error (Err.validationError "Category name must be between 1 and 255 characters")
  else if !(store.users.contains userId) then
    Except.error (Err.authorizationError "User not found")
  else
    let position :=
      (lastPositionDesc ((store.categories.filter (fun c => c.userId == userId)).map
        (fun c => c.position))).getD 0 + 1000
    Except.ok { store with
      categories := store.categories ++
        [{ id := newId, userId := userId, name := name,
           isDefault := isDefault.getD false, position := position }] }

/-- `updateTaskTitle(userId, taskId, title)`: validate the title, verify
ownership, write the title. -/
def updateTaskTitle (store : Store) (userId taskId title : String) : Except Err Store :=
  if !(validateTitleOk title) then
    Except.error (Err.validationError "Title must be between 1 and 255 characters")
  else match findOwnedTask store userId taskId with
  | none => Except.error (Err.authorizationError "Task not found or unauthorized")
  | some _ =>
    Except.ok { store with
      tasks := store.tasks.map (fun t =>
        if t.id == taskId then { t with title := title } else t) }

/-- `updateTaskDescription(userId, taskId, description)`. -/
def updateTaskDescription (store : Store) (userId taskId description : String) :
    Except Err Store :=
  if !(validateDescriptionOk (some description)) then
    Except.error (Err.validationError "Description must not exceed 1000 characters")
  else match findOwnedTask store userId taskId with
  | none => Except.error (Err.authorizationError "Task not found or unauthorized")
  | some _ =>
    Except.ok { store with
      tasks := store.tasks.map (fun t =>
        if t.id == taskId then { t with description := some description } else t) }

/-- `updateTaskStatus(userId, taskId, newStatus)`: verify ownership,
validate the status, write the status. -/
def updateTaskStatus (store : Store) (userId taskId : String) (newStatus : TaskStatus) :
    Except Err Store :=
  match findOwnedTask store userId taskId with
  | none => Except.error (Err.authorizationError "Task not found or unauthorized")
  | some _ =>
    if !(validateStatusOk newStatus) then
      Except.error (Err.validationError "Invalid status")
    else
      Except.ok { store with
        tasks := store.tasks.map (fun t =>
          if t.id == taskId then { t with status := newStatus } else t) }

/-- `updateTaskCategory(userId, taskId, categoryId)`: verify task
ownership, verify category ownership (skipped for an empty id, as
`validateCategoryId` only checks a truthy id), write the category. -/
def updateTaskCategory (store : Store) (userId taskId categoryId : String) :
    Except Err Store :=
  match findOwnedTask store userId taskId with
  | none => Except.error (Err.authorizationError "Task not found or unauthorized")
  | some _ =>
    if categoryId != "" && (findOwnedCategory store userId categoryId).isNone then
      Except.error (Err.authorizationError "Category not found or unauthorized")
    else
      Except.ok { store with
        tasks := store.tasks.map (fun t =>
          if t.id == taskId then { t with categoryId := some categoryId } else t) }

/-- The id-and-position projection of the task table, used to state that
an operation leaves every task's position untouched. -/
def taskPositions (store : Store) : List (String × ℚ) :=
  store.tasks.map (fun t => (t.id, t.position))

/-!
General lemmas about the embedded operations: effect of the id-keyed
row updates on position lookups, the rebalance fold, and the
maximum-position query.
-/

theorem posOf_map_update (l : List Task) (tid : String) (pos : ℚ) (f : Task → Task)
    (hid : ∀ t, (f t).id = t.id) (hpos : ∀ t, (f t).position = pos) :
    posOf (l.map (fun t => if t.id == tid then f t else t)) tid
      = (l.find? (fun t => t.id == tid)).map (fun _ => pos) := by
  induction l with
  | nil => rfl
  | cons a l ih =>
    cases hc : (a.id == tid) with
    | true =>
      simp only [List.map_cons, if_pos hc, posOf] at *
      rw [List.find?_cons_of_pos, List.find?_cons_of_pos]
      · simp [hpos a]
      · exact hc
      · show ((f a).id == tid) = true
        rw [hid a]; exact hc
    | false =>
      have hneg : ¬ ((a.id == tid) = true) := by rw [hc]; exact Bool.false_ne_true
      simp only [List.map_cons, if_neg hneg, posOf] at *
      rw [List.find?_cons_of_neg, List.find?_cons_of_neg]
      · exact ih
      · exact hneg
      · exact hneg

theorem posOf_map_update_ne (l : List Task) (tid tid2 : String) (f : Task → Task)
    (hid : ∀ t, (f t).id = t.id) (hne : tid2 ≠ tid) :
    posOf (l.map (fun t => if t.id == tid then f t else t)) tid2 = posOf l tid2 := by
  induction l with
  | nil => rfl
  | cons a l ih =>
    cases hc : (a.id == tid) with
    | true =>
      have ha : a.id = tid := by simpa using hc
      have hneq : ¬ ((fun t => t.id == tid2) a = true) := by
        simp [ha]
        exact fun h => hne h.symm
      have hneqf : ¬ ((fun t => t.id == tid2) (f a) = true) := by
        show ¬ (((f a).id == tid2) = true)
        rw [hid a]; exact hneq
      simp only [List.map_cons, if_pos hc, posOf] at *
      rw [@List.find?_cons_of_neg _ (fun t => t.id == tid2) (f a) _ hneqf,
          @List.find?_cons_of_neg _ (fun t => t.id == tid2) a _ hneq]
      exact ih
    | false =>
      have hneg : ¬ ((a.id == tid) = true) := by rw [hc]; exact Bool.false_ne_true
      simp only [List.map_cons, if_neg hneg, posOf] at *
      cases hc2 : (a.id == tid2) with
      | true =>
        rw [@List.find?_cons_of_pos _ (fun t => t.id == tid2) a _ hc2,
            @List.find?_cons_of_pos _ (fun t => t.id == tid2) a _ hc2]
      | false =>
        have hneg2 : ¬ ((fun t => t.id == tid2) a = true) := by
          show ¬ ((a.id == tid2) = true)
          rw [hc2]; exact Bool.false_ne_true
        rw [@List.find?_cons_of_neg _ (fun t => t.id == tid2) a _ hneg2,
            @List.find?_cons_of_neg _ (fun t => t.id == tid2) a _ hneg2]
        exact ih

theorem posOf_commitMove (store : Store) (tid : String) (pos : ℚ) (cid : Option String) :
    posOf (commitMove store tid pos cid).tasks tid
      = (store.tasks.find? (fun t => t.id == tid)).map (fun _ => pos) :=
  posOf_map_update store.tasks tid pos _ (fun _ => rfl) (fun _ => rfl)

theorem posOf_updatePositionById (l : List Task) (tid : String) (pos : ℚ) :
    posOf (updatePositionById l tid pos) tid
      = (l.find? (fun t => t.id == tid)).map (fun _ => pos) :=
  posOf_map_update l tid pos _ (fun _ => rfl) (fun _ => rfl)

theorem posOf_updatePositionById_ne (l : List Task) (tid tid2 : String) (pos : ℚ)
    (hne : tid2 ≠ tid) :
    posOf (updatePositionById l tid pos) tid2 = posOf l tid2 :=
  posOf_map_update_ne l tid tid2 _ (fun _ => rfl) hne

theorem ids_map_update (l : List Task) (tid : String) (f : Task → Task)
    (hid : ∀ t, (f t).id = t.id) :
    (l.map (fun t => if t.id == tid then f t else t)).map (fun t => t.id)
      = l.map (fun t => t.id) := by
  induction l with
  | nil => rfl
  | cons a l ih =>
    simp only [List.map_cons, ih]
    cases hc : (a.id == tid) with
    | true => simp [if_pos hc, hid a]
    | false =>
      have hneg : ¬ ((a.id == tid) = true) := by rw [hc]; exact Bool.false_ne_true
      simp [if_neg hneg]

theorem ids_updatePositionById (l : List Task) (tid : String) (pos : ℚ) :
    (updatePositionById l tid pos).map (fun t => t.id) = l.map (fun t => t.id) :=
  ids_map_update l tid _ (fun _ => rfl)

theorem ids_rebAux (tasks : List Task) (k : Nat) (col : List Task) :
    (rebAux tasks k col).map (fun t => t.id) = tasks.map (fun t => t.id) := by
  induction col generalizing tasks k with
  | nil => rfl
  | cons t ts ih => rw [rebAux, ih, ids_updatePositionById]

theorem posOf_rebAux_not_mem (tasks : List Task) (k : Nat) (col : List Task) (tid : String)
    (h : ∀ t ∈ col, t.id ≠ tid) :
    posOf (rebAux tasks k col) tid = posOf tasks tid := by
  induction col generalizing tasks k with
  | nil => rfl
  | cons t ts ih =>
    rw [rebAux, ih _ _ (fun x hx => h x (List.mem_cons_of_mem t hx)),
        posOf_updatePositionById_ne]
    exact fun he => h t (List.mem_cons_self t ts) he.symm

theorem find_id_isSome_iff (l : List Task) (tid : String) :
    (l.find? (fun t => t.id == tid)).isSome = true ↔ tid ∈ l.map (fun t => t.id) := by
  rw [List.find?_isSome]
  constructor
  · rintro ⟨x, hx, hpx⟩
    exact List.mem_map.2 ⟨x, hx, by simpa using hpx⟩
  · intro h
    rcases List.mem_map.1 h with ⟨x, hx, hxx⟩
    exact ⟨x, hx, by simp [hxx]⟩

theorem posOf_rebAux (tasks : List Task) (k : Nat) (col : List Task)
    (hnd : (col.map (fun t => t.id)).Nodup)
    (i : Nat) (hi : i < col.length)
    (hpres : (col.get ⟨i, hi⟩).id ∈ tasks.map (fun t => t.id)) :
    posOf (rebAux tasks k col) (col.get ⟨i, hi⟩).id
      = some ((k + i + 1 : ℚ) * POSITION_GAP) := by
  induction col generalizing tasks k i with
  | nil => exact absurd hi (Nat.not_lt_zero i)
  | cons t ts ih =>
    cases i with
    | zero =>
      have hhd : ∀ x ∈ ts, x.id ≠ t.id := by
        intro x hx he
        have : t.id ∈ ts.map (fun y => y.id) := List.mem_map.2 ⟨x, hx, he⟩
        exact (List.nodup_cons.1 (by simpa using hnd)).1 this
      rw [rebAux]
      show posOf (rebAux (updatePositionById tasks t.id ((k + 1 : ℚ) * POSITION_GAP)) (k + 1) ts) t.id = _
      rw [posOf_rebAux_not_mem _ _ _ _ hhd, posOf_updatePositionById]
      have hs : (tasks.find? (fun x => x.id == t.id)).isSome = true :=
        (find_id_isSome_iff tasks t.id).2 (by simpa using hpres)
      rcases Option.isSome_iff_exists.1 hs with ⟨x, hx⟩
      rw [hx]
      norm_num
    | succ j =>
      have hj : j < ts.length := Nat.lt_of_succ_lt_succ hi
      have hnd2 : (ts.map (fun x => x.id)).Nodup := (List.nodup_cons.1 (by simpa using hnd)).2
      have hpres2 : (ts.get ⟨j, hj⟩).id ∈
          (updatePositionById tasks t.id ((k + 1 : ℚ) * POSITION_GAP)).map (fun x => x.id) := by
        rw [ids_updatePositionById]
        simpa using hpres
      rw [rebAux]
      have := ih (updatePositionById tasks t.id ((k + 1 : ℚ) * POSITION_GAP)) (k + 1) hnd2 j hj hpres2
      show posOf (rebAux (updatePositionById tasks t.id ((k + 1 : ℚ) * POSITION_GAP)) (k + 1) ts) (ts.get ⟨j, hj⟩).id = _
      rw [this]
      congr 1
      push_cast
      ring

theorem posOf_rebalancePositions (tasks : List Task) (col : List Task)
    (hnd : (col.map (fun t => t.id)).Nodup)
    (i : Nat) (hi : i < col.length)
    (hpres : (col.get ⟨i, hi⟩).id ∈ tasks.map (fun t => t.id)) :
    posOf (rebalancePositions tasks col) (col.get ⟨i, hi⟩).id
      = some ((i + 1 : ℚ) * POSITION_GAP) := by
  have := posOf_rebAux tasks 0 col hnd i hi hpres
  rw [rebalancePositions, this]
  norm_num

theorem lastPositionDesc_mem (l : List ℚ) (q : ℚ)
    (h : lastPositionDesc l = some q) : q ∈ l := by
  induction l generalizing q with
  | nil => exact absurd h (by simp [lastPositionDesc])
  | cons a l ih =>
    rw [lastPositionDesc] at h
    cases hl : lastPositionDesc l with
    | none =>
      rw [hl] at h
      simp at h
      simp [h]
    | some p =>
      rw [hl] at h
      simp at h
      rcases max_choice a p with hm | hm
      · have hqa : q = a := by rw [← h, hm]
        rw [hqa]
        exact List.mem_cons_self a l
      · have hqp : q = p := by rw [← h, hm]
        rw [hqp]
        exact List.mem_cons_of_mem a (ih p hl)

theorem lastPositionDesc_isUB (l : List ℚ) (q : ℚ)
    (h : lastPositionDesc l = some q) : ∀ x ∈ l, x ≤ q := by
  induction l generalizing q with
  | nil => simp
  | cons a l ih =>
    intro x hx
    rw [lastPositionDesc] at h
    cases hl : lastPositionDesc l with
    | none =>
      rw [hl] at h
      simp at h
      cases l with
      | nil =>
        rcases List.mem_cons.1 hx with hxx | hxx
        · exact le_of_eq (h ▸ hxx)
        · exact absurd hxx (List.not_mem_nil x)
      | cons b m => exact absurd hl (by rw [lastPositionDesc]; simp)
    | some p =>
      rw [hl] at h
      simp at h
      rcases List.mem_cons.1 hx with hxx | hxx
      · exact h ▸ (hxx ▸ le_max_left a p)
      · exact le_trans (ih p hl x hxx) (h ▸ le_max_right a p)

theorem lastPositionDesc_eq_max (l : List ℚ) (p : ℚ)
    (h1 : p ∈ l) (h2 : ∀ x ∈ l, x ≤ p) : lastPositionDesc l = some p := by
  cases l with
  | nil => exact absurd h1 (List.not_mem_nil p)
  | cons a m =>
    cases hl : lastPositionDesc (a :: m) with
    | none => exact absurd hl (by rw [lastPositionDesc]; simp)
    | some q =>
      have hq : q ≤ p := h2 q (lastPositionDesc_mem _ _ hl)
      have hp : p ≤ q := lastPositionDesc_isUB _ _ hl p h1
      rw [le_antisymm hq hp]

theorem posOf_append_fresh (l : List Task) (t : Task)
    (h : l.find? (fun x => x.id == t.id) = none) :
    posOf (l ++ [t]) t.id = some t.position := by
  rw [posOf, List.find?_append, h]
  simp

theorem posOfCat_append_fresh (l : List Category) (c : Category)
    (h : l.find? (fun x => x.id == c.id) = none) :
    posOfCat (l ++ [c]) c.id = some c.position := by
  rw [posOfCat, List.find?_append, h]
  simp

theorem posOfCat_map_update (l : List Category) (cid : String) (pos : ℚ) :
    posOfCat (l.map (fun c => if c.id == cid then { c with position := pos } else c)) cid
      = (l.find? (fun c => c.id == cid)).map (fun _ => pos) := by
  induction l with
  | nil => rfl
  | cons a l ih =>
    cases hc : (a.id == cid) with
    | true =>
      have ha : a.id = cid := by simpa using hc
      simp [posOfCat, List.find?_cons, ha]
    | false =>
      have ha : ¬ (a.id = cid) := by simpa using hc
      simpa [posOfCat, List.find?_cons, hc, ha] using ih

theorem catFind_isSome_of_owned (store : Store) (u cid : String) (c0 : Category)
    (h : findOwnedCategory store u cid = some c0) :
    (store.categories.find? (fun c => c.id == cid)).isSome = true := by
  have hmem : c0 ∈ store.categories := List.mem_of_find?_eq_some h
  have hp := List.find?_some h
  rw [Bool.and_eq_true] at hp
  exact List.find?_isSome.2 ⟨c0, hmem, hp.1⟩

theorem taskFind_isSome_of_owned (store : Store) (u tid : String) (t0 : Task)
    (h : findOwnedTask store u tid = some t0) :
    (store.tasks.find? (fun t => t.id == tid)).isSome = true := by
  have hmem : t0 ∈ store.tasks := List.mem_of_find?_eq_some h
  have hp := List.find?_some h
  rw [Bool.and_eq_true] at hp
  exact List.find?_isSome.2 ⟨t0, hmem, hp.1⟩

theorem taskPositions_map_keep (l : List Task) (f : Task → Task)
    (hid : ∀ t, (f t).id = t.id) (hpos : ∀ t, (f t).position = t.position) :
    (l.map f).map (fun t => (t.id, t.position)) = l.map (fun t => (t.id, t.position)) := by
  induction l with
  | nil => rfl
  | cons a l ih =>
    simp only [List.map_cons, ih, List.cons.injEq, and_true]
    rw [hid a, hpos a]

/-!
The claims.
-/

theorem posOf_commitMove_of_owned (store : Store) (u tid : String) (t0 : Task) (pos : ℚ)
    (cid : Option String) (hown : findOwnedTask store u tid = some t0) :
    posOf (commitMove store tid pos cid).tasks tid = some pos := by
  rw [posOf_commitMove]
  rcases Option.isSome_iff_exists.1 (taskFind_isSome_of_owned store u tid t0 hown) with ⟨x, hx⟩
  rw [hx]
  rfl

theorem categoryReorder_none_none (store : Store) (cid : String) :
    categoryReorder store cid none none
      = Except.ok { store with categories := store.categories.map (fun c =>
          if c.id == cid then { c with position := POSITION_SPACING } else c) } := rfl

/-- Demonstration store for the rebalance path: one user `u` with tasks
`a` at 0, `b` at 1/2 (a degenerate half-unit gap) and `c` at 5000. -/
def rebalanceDemoStore : Store :=
  { tasks := [⟨"a", "u", 0, "A", none, TaskStatus.TODO, none⟩,
              ⟨"b", "u", 1/2, "B", none, TaskStatus.TODO, none⟩,
              ⟨"c", "u", 5000, "C", none, TaskStatus.TODO, none⟩] }

/-- C1: moving `c` between `a` (position 0) and `b` (position 1/2) exercises
the gap-too-small branch: the transaction rebalances once (`a` ends at 1000,
`b` at 2000) but then commits `c` at the midpoint of the PRE-rebalance
neighbour positions, 1/4 — outside the interval between the rebalanced
neighbours, contradicting the claim that allocation is recomputed against
the new, evenly spaced positions.  (The source even comments "Recalculate
position after rebalancing" but reads the stale in-memory values.) -/
theorem moveTask_rebalance_commits_stale_midpoint :
    posOf (applyResult rebalanceDemoStore
      (moveTask rebalanceDemoStore "u" "c" (some "a") (some "b") none)).tasks "a"
        = some 1000 ∧
    posOf (applyResult rebalanceDemoStore
      (moveTask rebalanceDemoStore "u" "c" (some "a") (some "b") none)).tasks "b"
        = some 2000 ∧
    posOf (applyResult rebalanceDemoStore
      (moveTask rebalanceDemoStore "u" "c" (some "a") (some "b") none)).tasks "c"
        = some (1/4) ∧
    ¬ ((1000 : ℚ) < 1/4 ∧ (1/4 : ℚ) < 2000) := by
  refine ⟨?_, ?_, ?_, ?_⟩ <;>
    norm_num +decide [moveTask, moveTaskTx, rebalanceDemoStore, findOwnedTask, sortByPos,
      insertByPos, rebalancePositions, rebAux, updatePositionById, commitMove, posOf,
      applyResult, POSITION_GAP]

/-- Store with exactly one task, at the creation position 1000. -/
def soloTaskStore : Store :=
  { tasks := [⟨"t", "u", 1000, "T", none, TaskStatus.TODO, none⟩] }

/-- C2 counterexample: the first-ever (sole) entity of the task scope,
moved with neither `beforeId` nor `afterId`, commits position 0 — its old
position 1000 minus `POSITION_GAP` — not the base gap constant 1000. -/
theorem moveTask_sole_task_commits_zero :
    posOf (applyResult soloTaskStore
      (moveTask soloTaskStore "u" "t" none none none)).tasks "t" = some 0 ∧
    (0 : ℚ) ≠ 1000 := by
  constructor
  · norm_num +decide [moveTask, moveTaskTx, soloTaskStore, findOwnedTask, sortByPos,
      insertByPos, commitMove, posOf, applyResult, POSITION_GAP]
  · norm_num

/-- C2 (amended): with neither neighbour id supplied, the
`calculateNewPosition` path (category reorder) commits the base gap
constant 1000 regardless of the scope, so the first-ever category moved
into its scope ends at 1000; the `moveTask` path instead loads a sibling
set that always contains the moved task itself, and moving the sole task
of a scope commits its current position minus `POSITION_GAP` (not 1000). -/
theorem move_no_neighbors_policy (store : Store) (u cid tid : String)
    (c0 : Category) (t0 : Task)
    (hcat : findOwnedCategory store u cid = some c0)
    (hown : findOwnedTask store u tid = some t0)
    (hsolo : sortByPos (store.tasks.filter (fun t => t.userId == u)) = [t0])
    (hpos : t0.position ≠ 0) :
    (∃ s2, moveCategory store u cid none none = Except.ok s2 ∧
      posOfCat s2.categories cid = some POSITION_SPACING) ∧
    (∃ s2, moveTask store u tid none none none = Except.ok s2 ∧
      posOf s2.tasks tid = some (t0.position - POSITION_GAP)) := by
  constructor
  · have h1 : moveCategory store u cid none none
        = Except.ok { store with categories := store.categories.map (fun c =>
            if c.id == cid then { c with position := POSITION_SPACING } else c) } := by
      rw [moveCategory.eq_def, hcat]
      exact categoryReorder_none_none store cid
    refine ⟨_, h1, ?_⟩
    show posOfCat (store.categories.map (fun c =>
      if c.id == cid then { c with position := POSITION_SPACING } else c)) cid
        = some POSITION_SPACING
    rw [posOfCat_map_update]
    rcases Option.isSome_iff_exists.1 (catFind_isSome_of_owned store u cid c0 hcat) with ⟨x, hx⟩
    rw [hx]
    rfl
  · have h1 : moveTask store u tid none none none
        = Except.ok (commitMove store tid (t0.position - POSITION_GAP) none) := by
      rw [moveTask.eq_def, hown]
      show moveTaskTx store u tid none none none = _
      simp only [moveTaskTx]
      rw [hsolo]
      simp [if_neg hpos]
    exact ⟨_, h1, posOf_commitMove_of_owned store u tid t0 _ none hown⟩

/-- Witness store for `move_no_neighbors_policy`: one category and one
task, each the sole entity of its scope. -/
def soloBothStore : Store :=
  { tasks := [⟨"t", "u", 1000, "T", none, TaskStatus.TODO, none⟩],
    categories := [⟨"c", "u", "work", false, 700⟩] }

/-- C2 amended-claim witness at `soloBothStore`. -/
theorem move_no_neighbors_policy_witness :
    (∃ s2, moveCategory soloBothStore "u" "c" none none = Except.ok s2 ∧
      posOfCat s2.categories "c" = some POSITION_SPACING) ∧
    (∃ s2, moveTask soloBothStore "u" "t" none none none = Except.ok s2 ∧
      posOf s2.tasks "t" = some ((1000 : ℚ) - POSITION_GAP)) :=
  move_no_neighbors_policy soloBothStore "u" "c" "t"
    ⟨"c", "u", "work", false, 700⟩ ⟨"t", "u", 1000, "T", none, TaskStatus.TODO, none⟩
    rfl rfl rfl (by norm_num)

/-- C7: a move request whose task id does not resolve to a task owned by
the calling user — because it belongs to a different user or does not
exist at all — fails with the single `AuthorizationError` of
`verifyTaskOwnership` (no distinction between the two cases) and the
committed store is unchanged: the guard runs before any write. -/
theorem moveTask_unauthorized_no_writes (store : Store) (u tid : String)
    (beforeId afterId categoryId : Option String)
    (h : ∀ t ∈ store.tasks, ¬ (t.id = tid ∧ t.userId = u)) :
    moveTask store u tid beforeId afterId categoryId
      = Except.error (Err.authorizationError "Task not found or unauthorized") ∧
    applyResult store (moveTask store u tid beforeId afterId categoryId) = store := by
  have hfind : findOwnedTask store u tid = none := by
    rw [findOwnedTask, List.find?_eq_none]
    intro x hx
    simp only [Bool.and_eq_true, beq_iff_eq]
    exact fun hc => h x hx hc
  have h1 : moveTask store u tid beforeId afterId categoryId
      = Except.error (Err.authorizationError "Task not found or unauthorized") := by
    rw [moveTask.eq_def, hfind]
  exact ⟨h1, by rw [h1]; rfl⟩

/-- Witness store for the ownership guard: the only task with id `t`
belongs to user `other`, not to the caller `u`. -/
def foreignTaskStore : Store :=
  { tasks := [⟨"t", "other", 1000, "T", none, TaskStatus.TODO, none⟩] }

/-- C7 witness at `foreignTaskStore`. -/
theorem moveTask_unauthorized_no_writes_witness :
    moveTask foreignTaskStore "u" "t" none none none
      = Except.error (Err.authorizationError "Task not found or unauthorized") ∧
    applyResult foreignTaskStore (moveTask foreignTaskStore "u" "t" none none none)
      = foreignTaskStore :=
  moveTask_unauthorized_no_writes foreignTaskStore "u" "t" none none none (by decide)

/-- C10: a `moveTask` with neither neighbour id places the task at the
head: the committed position is the current first sibling's position
minus `POSITION_GAP`, except that a first sibling at position 0 — falsy
under the source's truthiness test — makes the committed position 0,
equal to the existing head's position. -/
theorem moveTask_no_neighbors_head_policy (store : Store) (u tid : String)
    (t0 h : Task)
    (hown : findOwnedTask store u tid = some t0)
    (hhead : (sortByPos (store.tasks.filter (fun t => t.userId == u))).head? = some h) :
    moveTask store u tid none none none
      = Except.ok (commitMove store tid
          (if h.position = 0 then 0 else h.position - POSITION_GAP) none) ∧
    posOf (applyResult store (moveTask store u tid none none none)).tasks tid
      = some (if h.position = 0 then 0 else h.position - POSITION_GAP) := by
  have h1 : moveTask store u tid none none none
      = Except.ok (commitMove store tid
          (if h.position = 0 then 0 else h.position - POSITION_GAP) none) := by
    rw [moveTask.eq_def, hown]
    show moveTaskTx store u tid none none none = _
    simp only [moveTaskTx]
    rw [hhead]
  refine ⟨h1, ?_⟩
  rw [h1]
  exact posOf_commitMove_of_owned store u tid t0 _ none hown

/-- Witness store for the head-move policy, generic case: head at 2000. -/
def headMoveStore : Store :=
  { tasks := [⟨"h", "u", 2000, "H", none, TaskStatus.TODO, none⟩,
              ⟨"t", "u", 3000, "T", none, TaskStatus.TODO, none⟩] }

/-- Witness store for the head-move policy, zero-head case. -/
def zeroHeadStore : Store :=
  { tasks := [⟨"h", "u", 0, "H", none, TaskStatus.TODO, none⟩,
              ⟨"t", "u", 500, "T", none, TaskStatus.TODO, none⟩] }

/-- C10 witness: both the generic head (2000 ↦ committed 1000) and the
zero head (0 ↦ committed 0) cases. -/
theorem moveTask_no_neighbors_head_policy_witness :
    (posOf (applyResult headMoveStore
        (moveTask headMoveStore "u" "t" none none none)).tasks "t"
      = some (if (2000 : ℚ) = 0 then 0 else 2000 - POSITION_GAP)) ∧
    (posOf (applyResult zeroHeadStore
        (moveTask zeroHeadStore "u" "t" none none none)).tasks "t"
      = some (if (0 : ℚ) = 0 then 0 else 0 - POSITION_GAP)) :=
  ⟨(moveTask_no_neighbors_head_policy headMoveStore "u" "t"
      ⟨"t", "u", 3000, "T", none, TaskStatus.TODO, none⟩
      ⟨"h", "u", 2000, "H", none, TaskStatus.TODO, none⟩ rfl rfl).2,
   (moveTask_no_neighbors_head_policy zeroHeadStore "u" "t"
      ⟨"t", "u", 500, "T", none, TaskStatus.TODO, none⟩
      ⟨"h", "u", 0, "H", none, TaskStatus.TODO, none⟩ rfl rfl).2⟩

/-- Store of three tasks of user `u` at the creation positions 1000,
2000, 3000. -/
def threeTaskStore : Store :=
  { tasks := [⟨"a", "u", 1000, "A", none, TaskStatus.TODO, none⟩,
              ⟨"b", "u", 2000, "B", none, TaskStatus.TODO, none⟩,
              ⟨"c", "u", 3000, "C", none, TaskStatus.TODO, none⟩] }

/-- C3: two committed moves produce a duplicate position.  Starting from
tasks a@1000, b@2000, c@3000, the move "c after a" commits c at
1000 + 500 = 1500, and the subsequent move "b after a" commits b at the
same 1500 (the after-a position is computed as a.position + GAP/2 without
looking at the successor), so the two distinct tasks b and c hold equal
positions after the second transaction commits. -/
theorem moveTask_two_moves_duplicate_positions :
    posOf (applyResult
        (applyResult threeTaskStore (moveTask threeTaskStore "u" "c" (some "a") none none))
        (moveTask
          (applyResult threeTaskStore (moveTask threeTaskStore "u" "c" (some "a") none none))
          "u" "b" (some "a") none none)).tasks "b" = some 1500 ∧
    posOf (applyResult
        (applyResult threeTaskStore (moveTask threeTaskStore "u" "c" (some "a") none none))
        (moveTask
          (applyResult threeTaskStore (moveTask threeTaskStore "u" "c" (some "a") none none))
          "u" "b" (some "a") none none)).tasks "c" = some 1500 ∧
    ("b" : String) ≠ "c" := by
  refine ⟨?_, ?_, by decide⟩ <;>
    norm_num +decide [moveTask, moveTaskTx, threeTaskStore, findOwnedTask, sortByPos,
      insertByPos, commitMove, posOf, applyResult, POSITION_GAP]

/-- Store of three categories of user `u` whose first two positions are
only 1/2000 apart — below the 0.001 minimum gap. -/
def tightCategoryStore : Store :=
  { categories := [⟨"c1", "u", "one", false, 1000⟩,
                   ⟨"c2", "u", "two", false, 1000 + 1/2000⟩,
                   ⟨"c3", "u", "three", false, 5000⟩] }

/-- C4 counterexample: a category move between neighbours 1/2000 apart
hits the gap-too-small condition in `calculateNewPosition`, and —
contrary to the claim that the condition is recovered internally for
task and category moves alike — `moveCategory` surfaces it to the caller
as a `PositionError`; no rebalance is attempted. -/
theorem moveCategory_gap_too_small_surfaces_error :
    moveCategory tightCategoryStore "u" "c3" (some "c1") (some "c2")
      = Except.error (Err.positionError "Positions too close, rebalancing required") := by
  norm_num +decide [moveCategory, categoryReorder, calculateNewPosition, categoryFindUnique,
    findOwnedCategory, tightCategoryStore, MIN_GAP, POSITION_SPACING, abs]

/-- C4 (amended): only the task-move path recovers internally from the
gap-too-small condition: when both neighbour ids resolve in the freshly
loaded sibling set and their gap is below 1, `moveTask` invokes the
rebalancer and commits (no error reaches the caller).  The category-move
path instead propagates the gap-too-small condition as a typed
`PositionError`.  Other failures also surface as typed errors: a task
move whose reference id does not resolve aborts with `PositionError`. -/
theorem gap_too_small_recovery_policy (store : Store) (u tid cid : String)
    (bid aid cbid caid : String) (t0 : Task) (bt at2 : Task) (c0 : Category) (b a : Category)
    (zid : String) :
    (findOwnedTask store u tid = some t0 →
     (sortByPos (store.tasks.filter (fun t => t.userId == u))).find?
        (fun t => t.id == bid) = some bt →
     (sortByPos (store.tasks.filter (fun t => t.userId == u))).find?
        (fun t => t.id == aid) = some at2 →
     at2.position - bt.position < 1 →
     moveTask store u tid (some bid) (some aid) none
       = Except.ok (commitMove
           { store with tasks := (rebalancePositions store.tasks
               (sortByPos (store.tasks.filter (fun t => t.userId == u)))) }
           tid ((bt.position + at2.position) / 2) none)) ∧
    (findOwnedCategory store u cid = some c0 →
     categoryFindUnique store cbid = some b →
     categoryFindUnique store caid = some a →
     (|(a.position + b.position) / 2 - b.position| < MIN_GAP ∨
      |(a.position + b.position) / 2 - a.position| < MIN_GAP) →
     moveCategory store u cid (some cbid) (some caid)
       = Except.error (Err.positionError "Positions too close, rebalancing required")) ∧
    (findOwnedTask store u tid = some t0 →
     (sortByPos (store.tasks.filter (fun t => t.userId == u))).find?
        (fun t => t.id == zid) = none →
     moveTask store u tid (some zid) none none
       = Except.error (Err.positionError "Reference task not found")) := by
  refine ⟨?_, ?_, ?_⟩
  · intro hown hb ha hlt
    rw [moveTask.eq_def, hown]
    show moveTaskTx store u tid (some bid) (some aid) none = _
    simp only [moveTaskTx]
    rw [hb, ha]
    dsimp only
    rw [if_pos hlt]
  · intro hcat hb ha hclose
    rw [moveCategory.eq_def, hcat]
    show categoryReorder store cid (some cbid) (some caid) = _
    simp only [categoryReorder, Option.bind, hb, ha, Option.map, calculateNewPosition]
    rw [if_pos hclose]
  · intro hown hnb
    rw [moveTask.eq_def, hown]
    show moveTaskTx store u tid (some zid) none none = _
    simp only [moveTaskTx]
    rw [hnb]

/-- Witness store for the recovery policy: a degenerate task pair at the
same position 1000 plus a mover at 5000, and likewise for categories. -/
def tightBothStore : Store :=
  { tasks := [⟨"a", "u", 1000, "A", none, TaskStatus.TODO, none⟩,
              ⟨"b", "u", 1000, "B", none, TaskStatus.TODO, none⟩,
              ⟨"c", "u", 5000, "C", none, TaskStatus.TODO, none⟩],
    categories := [⟨"d", "u", "one", false, 1000⟩,
                   ⟨"e", "u", "two", false, 1000⟩,
                   ⟨"f", "u", "three", false, 5000⟩] }

/-- C4 amended-claim witness at `tightBothStore`. -/
theorem gap_too_small_recovery_policy_witness :
    moveTask tightBothStore "u" "c" (some "a") (some "b") none
      = Except.ok (commitMove
          { tightBothStore with tasks := (rebalancePositions tightBothStore.tasks
              (sortByPos (tightBothStore.tasks.filter (fun t => t.userId == "u")))) }
          "c" (((1000 : ℚ) + 1000) / 2) none) ∧
    moveCategory tightBothStore "u" "f" (some "d") (some "e")
      = Except.error (Err.positionError "Positions too close, rebalancing required") ∧
    moveTask tightBothStore "u" "c" (some "zz") none none
      = Except.error (Err.positionError "Reference task not found") := by
  have h := gap_too_small_recovery_policy tightBothStore "u" "c" "f" "a" "b" "d" "e"
    ⟨"c", "u", 5000, "C", none, TaskStatus.TODO, none⟩
    ⟨"a", "u", 1000, "A", none, TaskStatus.TODO, none⟩
    ⟨"b", "u", 1000, "B", none, TaskStatus.TODO, none⟩
    ⟨"f", "u", "three", false, 5000⟩
    ⟨"d", "u", "one", false, 1000⟩
    ⟨"e", "u", "two", false, 1000⟩
    "zz"
  exact ⟨h.1 rfl rfl rfl (by norm_num), h.2.1 rfl rfl rfl (by norm_num [MIN_GAP]),
         h.2.2 rfl rfl⟩

/-- Store of two categories of user `u` at 1000 and 5000. -/
def catTailStore : Store :=
  { categories := [⟨"c1", "u", "one", false, 1000⟩,
                   ⟨"c2", "u", "two", false, 5000⟩] }

/-- C5 counterexample: a category move supplying only `beforeId` commits
`before.position + 1000` (the full `POSITION_SPACING`), not
`before.position + GAP/2 = before.position + 500`: moving `c2` after the
category `c1` at 1000 commits 2000, not 1500. -/
theorem moveCategory_tail_insert_adds_full_gap :
    posOfCat (applyResult catTailStore
      (moveCategory catTailStore "u" "c2" (some "c1") none)).categories "c2"
        = some 2000 ∧
    (2000 : ℚ) ≠ 1000 + 1000 / 2 := by
  constructor
  · norm_num +decide [moveCategory, categoryReorder, calculateNewPosition, categoryFindUnique,
      findOwnedCategory, catTailStore, posOfCat, applyResult, POSITION_SPACING]
  · norm_num

/-- C5 (amended): a move supplying only `beforeId` commits
`before.position + POSITION_GAP / 2` (+500) in the task path, but
`before.position + POSITION_SPACING` (+1000) in the category path. -/
theorem tail_insert_position_policy (store : Store) (u tid cid bid cbid : String)
    (t0 bt : Task) (c0 : Category) (b : Category) :
    (findOwnedTask store u tid = some t0 →
     (sortByPos (store.tasks.filter (fun t => t.userId == u))).find?
        (fun t => t.id == bid) = some bt →
     ∃ s2, moveTask store u tid (some bid) none none = Except.ok s2 ∧
       posOf s2.tasks tid = some (bt.position + POSITION_GAP / 2)) ∧
    (findOwnedCategory store u cid = some c0 →
     categoryFindUnique store cbid = some b →
     ∃ s2, moveCategory store u cid (some cbid) none = Except.ok s2 ∧
       posOfCat s2.categories cid = some (b.position + POSITION_SPACING)) := by
  constructor
  · intro hown hb
    have h1 : moveTask store u tid (some bid) none none
        = Except.ok (commitMove store tid (bt.position + POSITION_GAP / 2) none) := by
      rw [moveTask.eq_def, hown]
      show moveTaskTx store u tid (some bid) none none = _
      simp only [moveTaskTx]
      rw [hb]
    exact ⟨_, h1, posOf_commitMove_of_owned store u tid t0 _ none hown⟩
  · intro hcat hb
    have h1 : moveCategory store u cid (some cbid) none
        = Except.ok { store with categories := store.categories.map (fun c =>
            if c.id == cid then { c with position := b.position + POSITION_SPACING }
            else c) } := by
      rw [moveCategory.eq_def, hcat]
      show categoryReorder store cid (some cbid) none = _
      simp only [categoryReorder, Option.bind, hb, Option.map, calculateNewPosition]
    refine ⟨_, h1, ?_⟩
    show posOfCat (store.categories.map (fun c =>
      if c.id == cid then { c with position := b.position + POSITION_SPACING } else c)) cid
        = some (b.position + POSITION_SPACING)
    rw [posOfCat_map_update]
    rcases Option.isSome_iff_exists.1 (catFind_isSome_of_owned store u cid c0 hcat) with ⟨x, hx⟩
    rw [hx]
    rfl

/-- Witness store for the tail-insert policy: a task pair and a category
pair, with the mover last in each scope. -/
def tailBothStore : Store :=
  { tasks := [⟨"a", "u", 1000, "A", none, TaskStatus.TODO, none⟩,
              ⟨"t", "u", 4000, "T", none, TaskStatus.TODO, none⟩],
    categories := [⟨"c1", "u", "one", false, 1000⟩,
                   ⟨"c2", "u", "two", false, 5000⟩] }

/-- C5 amended-claim witness at `tailBothStore`: the task move after `a`
commits 1000 + 500, the category move after `c1` commits 1000 + 1000. -/
theorem tail_insert_position_policy_witness :
    (∃ s2, moveTask tailBothStore "u" "t" (some "a") none none = Except.ok s2 ∧
      posOf s2.tasks "t" = some ((1000 : ℚ) + POSITION_GAP / 2)) ∧
    (∃ s2, moveCategory tailBothStore "u" "c2" (some "c1") none = Except.ok s2 ∧
      posOfCat s2.categories "c2" = some ((1000 : ℚ) + POSITION_SPACING)) := by
  have h := tail_insert_position_policy tailBothStore "u" "t" "c2" "a" "c1"
    ⟨"t", "u", 4000, "T", none, TaskStatus.TODO, none⟩
    ⟨"a", "u", 1000, "A", none, TaskStatus.TODO, none⟩
    ⟨"c2", "u", "two", false, 5000⟩
    ⟨"c1", "u", "one", false, 1000⟩
  exact ⟨h.1 rfl rfl, h.2 rfl rfl⟩

theorem tasks_getDefaultCategoryId (store : Store) (u nid : String) :
    (getDefaultCategoryId store u nid).1.tasks = store.tasks := by
  unfold getDefaultCategoryId
  cases store.categories.find? (fun c => c.userId == u && c.isDefault) <;> rfl

theorem tasks_resolveCategoryId (store : Store) (u : String) (cid : Option String)
    (ncid : String) :
    (resolveCategoryId store u cid ncid).1.tasks = store.tasks := by
  unfold resolveCategoryId
  cases cid with
  | none => exact tasks_getDefaultCategoryId store u ncid
  | some c =>
    cases hc : (c == "") with
    | true => simp only [if_pos hc]; exact tasks_getDefaultCategoryId store u ncid
    | false =>
      have : ¬ ((c == "") = true) := by rw [hc]; exact Bool.false_ne_true
      simp only [if_neg this]

theorem createTask_ok (store : Store) (u : String) (data : CreateTaskInput)
    (ntid ncid : String)
    (hv1 : validateTitleOk data.title = true)
    (hv2 : validateDescriptionOk data.description = true)
    (hu : (u == "") = false) :
    createTask store u data ntid ncid = Except.ok
      { (resolveCategoryId store u data.categoryId ncid).1 with
        tasks := store.tasks ++
          [{ id := ntid, userId := u,
             position := getNextPosition store u,
             title := data.title, description := data.description,
             status := data.status.getD TaskStatus.TODO,
             categoryId := some (resolveCategoryId store u data.categoryId ncid).2 }] } := by
  rw [createTask, hv1, hv2, hu, tasks_resolveCategoryId]
  rfl

theorem getNextPosition_empty (store : Store) (u : String)
    (h : store.tasks.filter (fun t => t.userId == u) = []) :
    getNextPosition store u = 1000 := by
  rw [getNextPosition, h]
  norm_num [lastPositionDesc]

theorem getNextPosition_max (store : Store) (u : String) (p : ℚ)
    (hmem : p ∈ (store.tasks.filter (fun t => t.userId == u)).map (fun t => t.position))
    (hub : ∀ q ∈ (store.tasks.filter (fun t => t.userId == u)).map (fun t => t.position),
      q ≤ p) :
    getNextPosition store u = p + 1000 := by
  rw [getNextPosition, lastPositionDesc_eq_max _ p hmem hub]
  rfl

theorem createCategory_ok (store : Store) (u nname : String) (isDef : Option Bool)
    (ncat : String)
    (hu : (u == "") = false)
    (hn : validateTitleOk nname = true)
    (huser : store.users.contains u = true) :
    createCategory store u nname isDef ncat = Except.ok
      { store with categories := store.categories ++
          [{ id := ncat, userId := u, name := nname,
             isDefault := isDef.getD false,
             position := (lastPositionDesc
               ((store.categories.filter (fun c => c.userId == u)).map
                 (fun c => c.position))).getD 0 + 1000 }] } := by
  rw [createCategory, hu, hn, huser]
  rfl

theorem catNextPosition_empty (store : Store) (u : String)
    (h : store.categories.filter (fun c => c.userId == u) = []) :
    (lastPositionDesc ((store.categories.filter (fun c => c.userId == u)).map
      (fun c => c.position))).getD 0 + 1000 = 1000 := by
  rw [h]
  norm_num [lastPositionDesc]

theorem catNextPosition_max (store : Store) (u : String) (p : ℚ)
    (hmem : p ∈ (store.categories.filter (fun c => c.userId == u)).map (fun c => c.position))
    (hub : ∀ q ∈ (store.categories.filter (fun c => c.userId == u)).map
      (fun c => c.position), q ≤ p) :
    (lastPositionDesc ((store.categories.filter (fun c => c.userId == u)).map
      (fun c => c.position))).getD 0 + 1000 = p + 1000 := by
  rw [lastPositionDesc_eq_max _ p hmem hub]
  rfl

/-- Store holding just the user `u`, no tasks and no categories. -/
def bareUserStore : Store := { users := ["u"] }

/-- C6 counterexample: the lazily created default category (here created
into an empty category scope) receives the fixed position 0, not
`lastExistingPosition + GAP = 1000`. -/
theorem default_category_created_at_zero :
    posOfCat (getDefaultCategoryId bareUserStore "u" "dc").1.categories "dc" = some 0 ∧
    (0 : ℚ) ≠ 1000 := by
  constructor
  · rfl
  · norm_num

/-- C6 (amended): `createTask` and `createCategory` assign the creation
position `lastExistingPosition + GAP`: the greatest position in the
user's scope plus 1000, hence 1000 on an empty scope.  The lazily
created default category is the exception: it is assigned the fixed
position 0. -/
theorem creation_position_policy (store : Store) (u : String)
    (data : CreateTaskInput) (ntid ncid nname ncat nid : String)
    (isDef : Option Bool) (p : ℚ) :
    (validateTitleOk data.title = true →
     validateDescriptionOk data.description = true →
     (u == "") = false →
     store.tasks.find? (fun t => t.id == ntid) = none →
     store.tasks.filter (fun t => t.userId == u) = [] →
     ∃ s2, createTask store u data ntid ncid = Except.ok s2 ∧
       posOf s2.tasks ntid = some 1000) ∧
    (validateTitleOk data.title = true →
     validateDescriptionOk data.description = true →
     (u == "") = false →
     store.tasks.find? (fun t => t.id == ntid) = none →
     p ∈ (store.tasks.filter (fun t => t.userId == u)).map (fun t => t.position) →
     (∀ q ∈ (store.tasks.filter (fun t => t.userId == u)).map (fun t => t.position),
       q ≤ p) →
     ∃ s2, createTask store u data ntid ncid = Except.ok s2 ∧
       posOf s2.tasks ntid = some (p + 1000)) ∧
    ((u == "") = false →
     validateTitleOk nname = true →
     store.users.contains u = true →
     store.categories.find? (fun c => c.id == ncat) = none →
     store.categories.filter (fun c => c.userId == u) = [] →
     ∃ s2, createCategory store u nname isDef ncat = Except.ok s2 ∧
       posOfCat s2.categories ncat = some 1000) ∧
    ((u == "") = false →
     validateTitleOk nname = true →
     store.users.contains u = true →
     store.categories.find? (fun c => c.id == ncat) = none →
     p ∈ (store.categories.filter (fun c => c.userId == u)).map (fun c => c.position) →
     (∀ q ∈ (store.categories.filter (fun c => c.userId == u)).map (fun c => c.position),
       q ≤ p) →
     ∃ s2, createCategory store u nname isDef ncat = Except.ok s2 ∧
       posOfCat s2.categories ncat = some (p + 1000)) ∧
    (store.categories.find? (fun c => c.userId == u && c.isDefault) = none →
     store.categories.find? (fun c => c.id == nid) = none →
     posOfCat (getDefaultCategoryId store u nid).1.categories nid = some 0) := by
  refine ⟨?_, ?_, ?_, ?_, ?_⟩
  · intro hv1 hv2 hu hfresh hempty
    refine ⟨_, createTask_ok store u data ntid ncid hv1 hv2 hu, ?_⟩
    have h2 : posOf (store.tasks ++
        [{ id := ntid, userId := u,
           position := getNextPosition store u,
           title := data.title, description := data.description,
           status := data.status.getD TaskStatus.TODO,
           categoryId := some (resolveCategoryId store u data.categoryId ncid).2 }]) ntid
        = some (getNextPosition store u) :=
      posOf_append_fresh store.tasks _ hfresh
    show posOf (store.tasks ++
        [{ id := ntid, userId := u,
           position := getNextPosition store u,
           title := data.title, description := data.description,
           status := data.status.getD TaskStatus.TODO,
           categoryId := some (resolveCategoryId store u data.categoryId ncid).2 }]) ntid
        = some 1000
    rw [h2]
    exact congrArg some (getNextPosition_empty store u hempty)
  · intro hv1 hv2 hu hfresh hmem hub
    refine ⟨_, createTask_ok store u data ntid ncid hv1 hv2 hu, ?_⟩
    have h2 : posOf (store.tasks ++
        [{ id := ntid, userId := u,
           position := getNextPosition store u,
           title := data.title, description := data.description,
           status := data.status.getD TaskStatus.TODO,
           categoryId := some (resolveCategoryId store u data.categoryId ncid).2 }]) ntid
        = some (getNextPosition store u) :=
      posOf_append_fresh store.tasks _ hfresh
    show posOf (store.tasks ++
        [{ id := ntid, userId := u,
           position := getNextPosition store u,
           title := data.title, description := data.description,
           status := data.status.getD TaskStatus.TODO,
           categoryId := some (resolveCategoryId store u data.categoryId ncid).2 }]) ntid
        = some (p + 1000)
    rw [h2]
    exact congrArg some (getNextPosition_max store u p hmem hub)
  · intro hu hn huser hfresh hempty
    refine ⟨_, createCategory_ok store u nname isDef ncat hu hn huser, ?_⟩
    have h2 : posOfCat (store.categories ++
        [{ id := ncat, userId := u, name := nname,
           isDefault := isDef.getD false,
           position := (lastPositionDesc
             ((store.categories.filter (fun c => c.userId == u)).map
               (fun c => c.position))).getD 0 + 1000 }]) ncat
        = some ((lastPositionDesc
            ((store.categories.filter (fun c => c.userId == u)).map
              (fun c => c.position))).getD 0 + 1000) :=
      posOfCat_append_fresh store.categories _ hfresh
    show posOfCat (store.categories ++
        [{ id := ncat, userId := u, name := nname,
           isDefault := isDef.getD false,
           position := (lastPositionDesc
             ((store.categories.filter (fun c => c.userId == u)).map
               (fun c => c.position))).getD 0 + 1000 }]) ncat
        = some 1000
    rw [h2]
    exact congrArg some (catNextPosition_empty store u hempty)
  · intro hu hn huser hfresh hmem hub
    refine ⟨_, createCategory_ok store u nname isDef ncat hu hn huser, ?_⟩
    have h2 : posOfCat (store.categories ++
        [{ id := ncat, userId := u, name := nname,
           isDefault := isDef.getD false,
           position := (lastPositionDesc
             ((store.categories.filter (fun c => c.userId == u)).map
               (fun c => c.position))).getD 0 + 1000 }]) ncat
        = some ((lastPositionDesc
            ((store.categories.filter (fun c => c.userId == u)).map
              (fun c => c.position))).getD 0 + 1000) :=
      posOfCat_append_fresh store.categories _ hfresh
    show posOfCat (store.categories ++
        [{ id := ncat, userId := u, name := nname,
           isDefault := isDef.getD false,
           position := (lastPositionDesc
             ((store.categories.filter (fun c => c.userId == u)).map
               (fun c => c.position))).getD 0 + 1000 }]) ncat
        = some (p + 1000)
    rw [h2]
    exact congrArg some (catNextPosition_max store u p hmem hub)
  · intro hnodef hfresh
    unfold getDefaultCategoryId
    rw [hnodef]
    exact posOfCat_append_fresh store.categories _ hfresh

/-- Witness store for the creation policy: one existing task at 1000 and
one existing category at 700 for user `u`. -/
def seededStore : Store :=
  { users := ["u"],
    tasks := [⟨"a", "u", 1000, "A", none, TaskStatus.TODO, none⟩],
    categories := [⟨"k", "u", "work", false, 700⟩] }

/-- C6 amended-claim witness: creations at `bareUserStore` (empty scopes)
commit 1000; creations at `seededStore` commit 1000 + 1000 and
700 + 1000; the lazily created default category of `bareUserStore`
commits 0. -/
theorem creation_position_policy_witness :
    (∃ s2, createTask bareUserStore "u" ⟨"t", none, none, none⟩ "t1" "dc"
        = Except.ok s2 ∧ posOf s2.tasks "t1" = some 1000) ∧
    (∃ s2, createTask seededStore "u" ⟨"t", none, none, none⟩ "t1" "dc"
        = Except.ok s2 ∧ posOf s2.tasks "t1" = some ((1000 : ℚ) + 1000)) ∧
    (∃ s2, createCategory bareUserStore "u" "w" none "nc"
        = Except.ok s2 ∧ posOfCat s2.categories "nc" = some 1000) ∧
    (∃ s2, createCategory seededStore "u" "w" none "nc"
        = Except.ok s2 ∧ posOfCat s2.categories "nc" = some ((700 : ℚ) + 1000)) ∧
    posOfCat (getDefaultCategoryId bareUserStore "u" "dc").1.categories "dc" = some 0 := by
  have ha := creation_position_policy bareUserStore "u" ⟨"t", none, none, none⟩
    "t1" "dc" "w" "nc" "dc" none 0
  have hb := creation_position_policy seededStore "u" ⟨"t", none, none, none⟩
    "t1" "dc" "w" "nc" "dc" none 1000
  have hc := creation_position_policy seededStore "u" ⟨"t", none, none, none⟩
    "t1" "dc" "w" "nc" "dc" none 700
  exact ⟨ha.1 (by decide) (by decide) (by decide) rfl rfl,
         hb.2.1 (by decide) (by decide) (by decide) rfl (by decide) (by decide),
         ha.2.2.1 (by decide) (by decide) (by decide) rfl rfl,
         hc.2.2.2.1 (by decide) (by decide) (by decide) rfl (by decide) (by decide),
         ha.2.2.2.2 rfl rfl⟩

/-- C8: `rebalancePositions` writes every member of its input list: the
task at 0-based index i is assigned the new position (i + 1) * 1000, and
for i < j the assigned positions are strictly increasing, preserving the
list's relative order.  (The id-nodup and presence hypotheses say the
listed rows are distinct rows of the task table, as in every call site,
where the list is the freshly loaded sibling set.) -/
theorem rebalancePositions_uniform_spacing (tasks col : List Task)
    (hnd : (col.map (fun t => t.id)).Nodup)
    (i j : Nat) (hi : i < col.length) (hj : j < col.length)
    (hpi : (col.get ⟨i, hi⟩).id ∈ tasks.map (fun t => t.id))
    (hpj : (col.get ⟨j, hj⟩).id ∈ tasks.map (fun t => t.id))
    (hij : i < j) :
    posOf (rebalancePositions tasks col) (col.get ⟨i, hi⟩).id
      = some ((i + 1 : ℚ) * POSITION_GAP) ∧
    posOf (rebalancePositions tasks col) (col.get ⟨j, hj⟩).id
      = some ((j + 1 : ℚ) * POSITION_GAP) ∧
    (i + 1 : ℚ) * POSITION_GAP < (j + 1 : ℚ) * POSITION_GAP := by
  refine ⟨posOf_rebalancePositions tasks col hnd i hi hpi,
          posOf_rebalancePositions tasks col hnd j hj hpj, ?_⟩
  have hq : (i : ℚ) < (j : ℚ) := by exact_mod_cast hij
  have hgap : (0 : ℚ) < POSITION_GAP := by rw [POSITION_GAP]; norm_num
  have h1 : (i + 1 : ℚ) < (j + 1 : ℚ) := by linarith
  exact mul_lt_mul_of_pos_right h1 hgap

/-- C8 witness: rebalancing the three-task table `threeTaskStore.tasks`
over itself as the loaded column assigns 1000 to the first row and 2000
to the second, in increasing order. -/
theorem rebalancePositions_uniform_spacing_witness :
    posOf (rebalancePositions threeTaskStore.tasks threeTaskStore.tasks)
        (threeTaskStore.tasks.get ⟨0, by decide⟩).id
      = some ((0 + 1 : ℚ) * POSITION_GAP) ∧
    posOf (rebalancePositions threeTaskStore.tasks threeTaskStore.tasks)
        (threeTaskStore.tasks.get ⟨1, by decide⟩).id
      = some ((1 + 1 : ℚ) * POSITION_GAP) ∧
    ((0 : ℚ) + 1) * POSITION_GAP < ((1 : ℚ) + 1) * POSITION_GAP :=
  rebalancePositions_uniform_spacing threeTaskStore.tasks threeTaskStore.tasks
    (by decide) 0 1 (by decide) (by decide) (by decide) (by decide) (by decide)

/-- C9: the four non-move field editors — title, description, status and
category updates — leave the `(id, position)` projection of the task
table and the whole category table unchanged, whether the call commits
or aborts: only the move operations mutate positions. -/
theorem field_editors_preserve_positions (store : Store) (u tid : String)
    (title description : String) (st : TaskStatus) (cid : String) :
    (taskPositions (applyResult store (updateTaskTitle store u tid title))
        = taskPositions store ∧
      (applyResult store (updateTaskTitle store u tid title)).categories
        = store.categories) ∧
    (taskPositions (applyResult store (updateTaskDescription store u tid description))
        = taskPositions store ∧
      (applyResult store (updateTaskDescription store u tid description)).categories
        = store.categories) ∧
    (taskPositions (applyResult store (updateTaskStatus store u tid st))
        = taskPositions store ∧
      (applyResult store (updateTaskStatus store u tid st)).categories
        = store.categories) ∧
    (taskPositions (applyResult store (updateTaskCategory store u tid cid))
        = taskPositions store ∧
      (applyResult store (updateTaskCategory store u tid cid)).categories
        = store.categories) := by
  have hgen : ∀ r : Except Err Store,
      (∀ s2, r = Except.ok s2 → taskPositions s2 = taskPositions store ∧
        s2.categories = store.categories) →
      taskPositions (applyResult store r) = taskPositions store ∧
        (applyResult store r).categories = store.categories := by
    intro r h
    cases r with
    | error e => exact ⟨rfl, rfl⟩
    | ok s2 => exact h s2 rfl
  have hkeep : ∀ (g : Task → Task), (∀ t, (g t).id = t.id) →
      (∀ t, (g t).position = t.position) →
      taskPositions { store with tasks := (store.tasks.map
        (fun t => if t.id == tid then g t else t)) } = taskPositions store := by
    intro g hgid hgpos
    show (store.tasks.map (fun t => if t.id == tid then g t else t)).map
        (fun t => (t.id, t.position)) = store.tasks.map (fun t => (t.id, t.position))
    apply taskPositions_map_keep
    · intro t
      show (if t.id == tid then g t else t).id = t.id
      by_cases hc : (t.id == tid) = true
      · rw [if_pos hc]; exact hgid t
      · rw [if_neg hc]
    · intro t
      show (if t.id == tid then g t else t).position = t.position
      by_cases hc : (t.id == tid) = true
      · rw [if_pos hc]; exact hgpos t
      · rw [if_neg hc]
  refine ⟨?_, ?_, ?_, ?_⟩
  · apply hgen
    intro s2 hs2
    rw [updateTaskTitle] at hs2
    split at hs2
    · cases hs2
    · split at hs2
      · cases hs2
      · rcases Except.ok.inj hs2 with h
        subst h
        exact ⟨hkeep _ (fun t => rfl) (fun t => rfl), rfl⟩
  · apply hgen
    intro s2 hs2
    rw [updateTaskDescription] at hs2
    split at hs2
    · cases hs2
    · split at hs2
      · cases hs2
      · rcases Except.ok.inj hs2 with h
        subst h
        exact ⟨hkeep _ (fun t => rfl) (fun t => rfl), rfl⟩
  · apply hgen
    intro s2 hs2
    rw [updateTaskStatus] at hs2
    split at hs2
    · cases hs2
    · split at hs2
      · cases hs2
      · rcases Except.ok.inj hs2 with h
        subst h
        exact ⟨hkeep _ (fun t => rfl) (fun t => rfl), rfl⟩
  · apply hgen
    intro s2 hs2
    rw [updateTaskCategory] at hs2
    split at hs2
    · cases hs2
    · split at hs2
      · cases hs2
      · rcases Except.ok.inj hs2 with h
        subst h
        exact ⟨hkeep _ (fun t => rfl) (fun t => rfl), rfl⟩

end TaskManager
